import Mathlib

/-!
Verification development for the `d` disk-mounting utility.

The source program (`src/main.rs`) is embedded shallowly: the fixed disk
table and pure name derivations are translated as Lean functions, and the
effectful operations (`mount`, `unmount`, `open_encrypted`,
`close_encrypted`, `do_mount`, `do_unmount`, `do_cd`, `main`) are
translated as explicit state-passing functions over a `World` that models
the OS-visible state (filesystem path existence, the mount table, the set
of active encryption mappings, the by-UUID device registry) together with
failure oracles supplying the errno or exit status the environment may
return.  Each operation also records the trace of external calls it makes,
so that ordering and never-invoked properties can be stated.

Modelling conventions, fixed once here:
- the `mount(2)` syscall reports `EBUSY` when the target path is already
  mounted, and otherwise an oracle-supplied errno or success;
- the `umount(2)` syscall reports an oracle-supplied errno if any, else
  succeeds when the path is mounted and reports `EINVAL` when it is not;
- `cryptsetup status <name>` exits successfully exactly when the mapping
  `<name>` is active;
- `cryptsetup open` exits with an oracle-supplied code (0 on success);
  `cryptsetup close` exits with an oracle-supplied code when the mapping
  is active and with the non-zero code 4 (device not active) when it is
  not;
- subprocess spawning itself, the `try_exists` metadata query and the
  sub-shell wait are modelled as always succeeding: the claims under
  study only concern exit statuses and errnos, not spawn/IO failures.
-/

deriving instance DecidableEq for Except

namespace D

/-- The five statically known disks (`enum Disk` in the source). -/
inductive Disk where
  | Zdani
  | Sivydatni
  | Muhackiku
  | Barda
  | Sivbra
deriving DecidableEq, Repr

/-- How a disk is physically realized (`enum Mountable` in the source). -/
inductive Mountable where
  | Plain (uuid : String)
  | Encrypted (outer_uuid : String) (inner_uuid : String)
deriving DecidableEq, Repr

/-- `Disk::as_repr`: the display name of a disk. -/
def Disk.as_repr : Disk → String
  | .Zdani => "zdani"
  | .Sivydatni => "sivydatni"
  | .Muhackiku => "muhackiku"
  | .Barda => "barda"
  | .Sivbra => "sivbra"

/-- `Disk::inner_filesystem`: the filesystem type of every disk. -/
def Disk.inner_filesystem : Disk → String
  | .Zdani | .Sivydatni | .Muhackiku | .Barda | .Sivbra => "ext4"

/-- `Disk::to_mountable`: the static table mapping disks to their
realization. -/
def Disk.to_mountable : Disk → Mountable
  | .Zdani => .Plain "9972ca08-32d9-42da-9418-1afa4a7f6966"
  | .Sivydatni =>
      .Encrypted "a02adf15-769d-4b61-9122-ddb3b3d1e7c2"
        "ac80428f-f91d-4b99-9d40-c885d122be18"
  | .Muhackiku =>
      .Encrypted "809dbaf9-4c95-4baf-890c-e6866dd1a913"
        "e1258f59-cb99-4b6b-8bd7-513c66d64439"
  | .Barda => .Plain "8f8ccfd3-aeae-4515-b081-3706561c64d4"
  | .Sivbra =>
      .Encrypted "5bd18b6b-1fc7-42e8-b318-c0c6d32ec86c"
        "09edb833-774e-4480-b9fa-f9e81627b0d5"

/-- `Disk::is_encrypted`. -/
def Disk.is_encrypted (d : Disk) : Bool :=
  match d.to_mountable with
  | .Plain _ => false
  | .Encrypted _ _ => true

/-- `mount_path_for_name`: the deterministic mount point `/mnt/<name>`. -/
def mount_path_for_name (name : String) : String :=
  "/mnt/" ++ name

/-- `opened_name_for_encrypted`: the derived session name
`<uuid>-<disk name>` of the unlocked mapping. -/
def opened_name_for_encrypted (uuid disk_name : String) : String :=
  uuid ++ "-" ++ disk_name

/-- The errno `EBUSY` (resource busy). -/
def EBUSY : Nat := 16

/-- The errno `EINVAL` (invalid argument). -/
def EINVAL : Nat := 22

/-- Errors of the embedded program, mirroring the `anyhow` error values the
source constructs (the added human-readable context strings are omitted;
the error kind and payload are kept). -/
inductive Err where
  /-- `dev_path_for_uuid` could not canonicalize the by-UUID symlink. -/
  | deviceNotFound (uuid : String)
  /-- the `mount(2)` syscall failed with this errno. -/
  | mountFailed (errno : Nat)
  /-- the `umount(2)` syscall failed with this errno. -/
  | umountFailed (errno : Nat)
  /-- a `cryptsetup` invocation exited with this non-zero status. -/
  | cryptExited (code : Int)
  /-- the process was not running as root (`ensure!` in `main`). -/
  | privilegeRequired
  /-- the action token did not parse (`UnknownAction`). -/
  | invalidAction (s : String)
  /-- the disk token did not parse (`UnknownDisk`). -/
  | invalidVolume (s : String)
deriving DecidableEq, Repr

/-- One observable external call made by the program. -/
inductive Event where
  /-- `std::fs::create_dir_all` on the mount path. -/
  | createDirAll (path : String)
  /-- the `mount(2)` syscall with device, target path and filesystem. -/
  | mountSyscall (dev : String) (path : String) (filesystem : String)
  /-- the `umount(2)` syscall on the target path. -/
  | umountSyscall (path : String)
  /-- `cryptsetup status <name>`. -/
  | cryptStatusCall (name : String)
  /-- `cryptsetup open <dev> <name>`. -/
  | cryptOpenCall (dev : String) (name : String)
  /-- `cryptsetup close <name>`. -/
  | cryptCloseCall (name : String)
  /-- spawning the interactive sub-shell in a directory, with the
  `--private` flag present exactly when the disk is encrypted. -/
  | spawnShell (dir : String) (isPrivate : Bool)
deriving DecidableEq, Repr

/-- The OS-visible state together with the environment's failure oracles. -/
structure World where
  /-- which filesystem paths currently exist. -/
  pathExists : String → Bool
  /-- the mount table: the list of currently mounted target paths. -/
  mounted : List String
  /-- the currently active encryption mappings, by session name. -/
  active : List String
  /-- the `/dev/disk/by-uuid` registry: canonical device path per UUID,
  `none` when the symlink is absent or cannot be resolved. -/
  devFor : String → Option String
  /-- oracle: an errno the `mount(2)` syscall returns for these arguments
  when the target is not already mounted (`none` = the call succeeds). -/
  mountErr : String → String → String → Option Nat
  /-- oracle: an errno the `umount(2)` syscall returns for this path,
  overriding the mount-table-derived outcome (`none` = no override). -/
  umountErr : String → Option Nat
  /-- oracle: the exit code of `cryptsetup open <dev> <name>` when the
  mapping is not yet active (0 = unlock succeeded). -/
  openCode : String → String → Int
  /-- oracle: the exit code of `cryptsetup close <name>` when the mapping
  is active (0 = close succeeded). -/
  closeCode : String → Int
  /-- whether the process runs with effective root identity. -/
  isRoot : Bool

/-- The outcome of running one embedded operation: the updated world, the
trace of external calls made, and the returned value or error. -/
structure Run (α : Type) where
  world : World
  trace : List Event
  result : Except Err α

/-- `dev_path_for_uuid`: canonicalize `/dev/disk/by-uuid/<uuid>` through
the registry. -/
def dev_path_for_uuid (w : World) (uuid : String) : Except Err String :=
  match w.devFor uuid with
  | some p => .ok p
  | none => .error (.deviceNotFound uuid)

/-- The `try_exists` check plus `create_dir_all` block at the top of
`mount`: ensure the mount path exists, creating it when absent. -/
def ensure_mount_path (w : World) (mount_path : String) :
    World × List Event :=
  if w.pathExists mount_path then (w, [])
  else
    ({ w with
        pathExists := fun p => if p = mount_path then true else w.pathExists p },
      [Event.createDirAll mount_path])

/-- Result of the `mount(2)` syscall in the OS model: `EBUSY` when the
target is already mounted, otherwise an oracle-supplied errno or success. -/
def mountSysResult (w : World) (dev mount_path filesystem : String) :
    Except Nat Unit :=
  if mount_path ∈ w.mounted then .error EBUSY
  else
    match w.mountErr dev mount_path filesystem with
    | some e => .error e
    | none => .ok ()

/-- Result of the `umount(2)` syscall in the OS model: an oracle-supplied
errno if any, else success when the path is mounted and `EINVAL` when it
is not. -/
def umountSysResult (w : World) (mount_path : String) : Except Nat Unit :=
  match w.umountErr mount_path with
  | some e => .error e
  | none => if mount_path ∈ w.mounted then .ok () else .error EINVAL

/-- `struct MountReturn`: the mount path plus whether the filesystem was
already mounted when the operation began. -/
structure MountReturn where
  mount_path : String
  was_already_mounted : Bool
deriving DecidableEq, Repr

/-- `mount`: ensure the mount path exists, resolve the device by UUID and
issue the mount syscall; `EBUSY` is treated as "already mounted" and
returned as success with `was_already_mounted = true`. -/
def mount (w : World) (uuid disk_name filesystem : String) :
    Run MountReturn :=
  let mount_path := mount_path_for_name disk_name
  let we := ensure_mount_path w mount_path
  match dev_path_for_uuid we.1 uuid with
  | .error e => ⟨we.1, we.2, .error e⟩
  | .ok dev =>
    let trace := we.2 ++ [Event.mountSyscall dev mount_path filesystem]
    match mountSysResult we.1 dev mount_path filesystem with
    | .ok _ =>
        ⟨{ we.1 with mounted := mount_path :: (we.1).mounted }, trace,
          .ok ⟨mount_path, false⟩⟩
    | .error e =>
        if e = EBUSY then ⟨we.1, trace, .ok ⟨mount_path, true⟩⟩
        else ⟨we.1, trace, .error (.mountFailed e)⟩

/-- `unmount`: if the mount path does not exist this is a no-op success;
otherwise issue the umount syscall, treating `EINVAL` as "already
unmounted" success. -/
def unmount (w : World) (disk_name : String) : Run Unit :=
  let mount_path := mount_path_for_name disk_name
  if w.pathExists mount_path then
    let trace := [Event.umountSyscall mount_path]
    match umountSysResult w mount_path with
    | .ok _ =>
        ⟨{ w with mounted := w.mounted.erase mount_path }, trace, .ok ()⟩
    | .error e =>
        if e = EINVAL then ⟨w, trace, .ok ()⟩
        else ⟨w, trace, .error (.umountFailed e)⟩
  else ⟨w, [], .ok ()⟩

/-- `open_encrypted`: if `cryptsetup status` reports the derived mapping
active, succeed without unlocking; otherwise resolve the outer device and
run `cryptsetup open`, failing on a non-zero exit. -/
def open_encrypted (w : World) (luks_uuid disk_name : String) : Run Unit :=
  let opened_name := opened_name_for_encrypted luks_uuid disk_name
  if opened_name ∈ w.active then
    ⟨w, [Event.cryptStatusCall opened_name], .ok ()⟩
  else
    match dev_path_for_uuid w luks_uuid with
    | .error e => ⟨w, [Event.cryptStatusCall opened_name], .error e⟩
    | .ok dev =>
      let trace :=
        [Event.cryptStatusCall opened_name, Event.cryptOpenCall dev opened_name]
      if w.openCode dev opened_name = 0 then
        ⟨{ w with active := opened_name :: w.active }, trace, .ok ()⟩
      else ⟨w, trace, .error (.cryptExited (w.openCode dev opened_name))⟩

/-- `close_encrypted`: run `cryptsetup close` on the derived mapping name,
failing on a non-zero exit; there is no "already closed" tolerance. -/
def close_encrypted (w : World) (luks_uuid disk_name : String) : Run Unit :=
  let opened_name := opened_name_for_encrypted luks_uuid disk_name
  let code :=
    if opened_name ∈ w.active then w.closeCode opened_name else 4
  if code = 0 then
    ⟨{ w with active := w.active.erase opened_name },
      [Event.cryptCloseCall opened_name], .ok ()⟩
  else ⟨w, [Event.cryptCloseCall opened_name], .error (.cryptExited code)⟩

/-- `do_mount`: plain disks mount directly by their UUID; encrypted disks
first open the outer device and only then mount by the inner UUID. -/
def do_mount (w : World) (disk : Disk) : Run MountReturn :=
  let disk_name := disk.as_repr
  let inner_filesystem := disk.inner_filesystem
  match disk.to_mountable with
  | .Plain uuid => mount w uuid disk_name inner_filesystem
  | .Encrypted outer_uuid inner_uuid =>
    let o := open_encrypted w outer_uuid disk_name
    match o.result with
    | .error e => ⟨o.world, o.trace, .error e⟩
    | .ok _ =>
      let m := mount o.world inner_uuid disk_name inner_filesystem
      ⟨m.world, o.trace ++ m.trace, m.result⟩

/-- `do_unmount`: unmount the filesystem; for encrypted disks, when the
unmount step returned without error, additionally close the encrypted
mapping. -/
def do_unmount (w : World) (disk : Disk) : Run Unit :=
  let disk_name := disk.as_repr
  match disk.to_mountable with
  | .Plain _ => unmount w disk_name
  | .Encrypted outer_uuid _ =>
    let u := unmount w disk_name
    match u.result with
    | .error e => ⟨u.world, u.trace, .error e⟩
    | .ok _ =>
      let c := close_encrypted u.world outer_uuid disk_name
      ⟨c.world, u.trace ++ c.trace, c.result⟩

/-- `do_cd`: mount, spawn the interactive sub-shell in the mount path
(with the privacy flag exactly for encrypted disks), and on exit always
call `do_unmount`, discarding `was_already_mounted` and downgrading an
unmount failure to a warning (the overall result stays `Ok`). -/
def do_cd (w : World) (disk : Disk) : Run Unit :=
  let m := do_mount w disk
  match m.result with
  | .error e => ⟨m.world, m.trace, .error e⟩
  | .ok ret =>
    let u := do_unmount m.world disk
    ⟨u.world,
      m.trace ++ [Event.spawnShell ret.mount_path disk.is_encrypted]
        ++ u.trace,
      .ok ()⟩

/-- The error payload of a failed action parse (`struct UnknownAction`). -/
structure UnknownAction where
  s : String
deriving DecidableEq, Repr

/-- The error payload of a failed disk parse (`struct UnknownDisk`). -/
structure UnknownDisk where
  s : String
deriving DecidableEq, Repr

/-- The `Display` message of `UnknownDisk` (its `thiserror` attribute):
note it names the tokens z, s, m and b but not sb. -/
def UnknownDisk.message (u : UnknownDisk) : String :=
  "unknown disk \"" ++ u.s ++
    "\". valid disks are z (zdani), s (sivydatni), m (muhackiku), b (barda)."

/-- The three actions (`enum Action`). -/
inductive Action where
  | Mount
  | Unmount
  | Cd
deriving DecidableEq, Repr

/-- `Action::from_str`. -/
def Action.from_str (s : String) : Except UnknownAction Action :=
  if s = "m" then .ok .Mount
  else if s = "u" then .ok .Unmount
  else if s = "c" then .ok .Cd
  else .error ⟨s⟩

/-- `Disk::from_str`. -/
def Disk.from_str (s : String) : Except UnknownDisk Disk :=
  if s = "z" then .ok .Zdani
  else if s = "s" then .ok .Sivydatni
  else if s = "m" then .ok .Muhackiku
  else if s = "b" then .ok .Barda
  else if s = "sb" then .ok .Sivbra
  else .error ⟨s⟩

/-- `main`: check the privilege precondition, parse the two positional
arguments, and dispatch to the selected operation. -/
def run_main (w : World) (action_str disk_str : String) : Run Unit :=
  if w.isRoot then
    match Action.from_str action_str with
    | .error u => ⟨w, [], .error (.invalidAction u.s)⟩
    | .ok action =>
      match Disk.from_str disk_str with
      | .error u => ⟨w, [], .error (.invalidVolume u.s)⟩
      | .ok disk =>
        match action with
        | .Mount =>
          let r := do_mount w disk
          ⟨r.world, r.trace, r.result.map fun _ => ()⟩
        | .Unmount => do_unmount w disk
        | .Cd => do_cd w disk
  else ⟨w, [], .error .privilegeRequired⟩

/-- The process exit status the embedded `main` produces: zero on success,
non-zero on any unrecovered error. -/
def exit_code (r : Run Unit) : Nat :=
  match r.result with
  | .ok _ => 0
  | .error _ => 1

/-- Modelled from the spec (refinement target, not from the source): the
spec describes the mounted device of an encrypted volume as "the unlocked
mapping addressed by the derived session name", i.e. the device-mapper
node `/dev/mapper/<session name>`.  The source is compared against this. -/
def spec_mapper_device (session_name : String) : String :=
  "/dev/mapper/" ++ session_name

/-- A quiescent test world: nothing exists, nothing is mounted, no mapping
is active, the registry is empty, no oracle injects a failure, root. -/
def w_base : World where
  pathExists := fun _ => false
  mounted := []
  active := []
  devFor := fun _ => none
  mountErr := fun _ _ _ => none
  umountErr := fun _ => none
  openCode := fun _ _ => 0
  closeCode := fun _ => 0
  isRoot := true

/-- Test world: `zdani` is already mounted and its device resolves. -/
def w_c1 : World := { w_base with
  pathExists := fun p => p == "/mnt/zdani"
  mounted := ["/mnt/zdani"]
  devFor := fun u =>
    if u = "9972ca08-32d9-42da-9418-1afa4a7f6966" then some "/dev/sda1"
    else none }

/-- Test world: the `sivydatni` mount point exists and the `umount(2)`
syscall on it fails with `EBUSY` (filesystem still busy). -/
def w_c2 : World := { w_base with
  pathExists := fun p => p == "/mnt/sivydatni"
  mounted := ["/mnt/sivydatni"]
  umountErr := fun p => if p = "/mnt/sivydatni" then some EBUSY else none }

/-- Test world: `sivydatni` is fresh; its outer UUID resolves to
`/dev/sdb` and its inner UUID resolves to `/dev/dm-7`. -/
def w_c4 : World := { w_base with
  pathExists := fun p => p == "/mnt/sivydatni"
  devFor := fun u =>
    if u = "a02adf15-769d-4b61-9122-ddb3b3d1e7c2" then some "/dev/sdb"
    else if u = "ac80428f-f91d-4b99-9d40-c885d122be18" then some "/dev/dm-7"
    else none }

/-- Test world: `zdani` is fresh (not mounted, path absent) and its device
resolves. -/
def w_c5 : World := { w_base with
  devFor := fun u =>
    if u = "9972ca08-32d9-42da-9418-1afa4a7f6966" then some "/dev/sda1"
    else none }

/-- Test world: the derived `sivydatni` encryption mapping is already
active. -/
def w_c7 : World := { w_base with
  active := ["a02adf15-769d-4b61-9122-ddb3b3d1e7c2-sivydatni"] }

end D

namespace D

@[simp] theorem ensure_mount_path_mounted (w : World) (p : String) :
    (ensure_mount_path w p).1.mounted = w.mounted := by
  unfold ensure_mount_path; split <;> rfl

@[simp] theorem ensure_mount_path_active (w : World) (p : String) :
    (ensure_mount_path w p).1.active = w.active := by
  unfold ensure_mount_path; split <;> rfl

@[simp] theorem ensure_mount_path_devFor (w : World) (p : String) :
    (ensure_mount_path w p).1.devFor = w.devFor := by
  unfold ensure_mount_path; split <;> rfl

@[simp] theorem ensure_mount_path_mountErr (w : World) (p : String) :
    (ensure_mount_path w p).1.mountErr = w.mountErr := by
  unfold ensure_mount_path; split <;> rfl

@[simp] theorem ensure_mount_path_umountErr (w : World) (p : String) :
    (ensure_mount_path w p).1.umountErr = w.umountErr := by
  unfold ensure_mount_path; split <;> rfl

@[simp] theorem ensure_mount_path_pathExists_self (w : World) (p : String) :
    (ensure_mount_path w p).1.pathExists p = true := by
  unfold ensure_mount_path; split <;> simp_all

theorem dev_path_ensure_some (w : World) (p uuid dev : String)
    (h : w.devFor uuid = some dev) :
    dev_path_for_uuid (ensure_mount_path w p).1 uuid = .ok dev := by
  unfold dev_path_for_uuid
  rw [ensure_mount_path_devFor, h]

theorem mountSysResult_ensure (w : World) (p dev q fs : String) :
    mountSysResult (ensure_mount_path w p).1 dev q fs =
      mountSysResult w dev q fs := by
  unfold mountSysResult
  rw [ensure_mount_path_mounted, ensure_mount_path_mountErr]

theorem mount_trace_mem (w : World) (uuid n fs dev : String)
    (h : w.devFor uuid = some dev) :
    Event.mountSyscall dev (mount_path_for_name n) fs
      ∈ (mount w uuid n fs).trace := by
  have hd := dev_path_ensure_some w (mount_path_for_name n) uuid dev h
  simp only [mount, hd]
  split <;> (try split) <;> simp

theorem mount_ok_inv (w : World) (uuid n fs : String) (mr : MountReturn)
    (h : (mount w uuid n fs).result = .ok mr) :
    ∃ dev, w.devFor uuid = some dev ∧
      (mount w uuid n fs).world.pathExists (mount_path_for_name n) = true ∧
      (mount w uuid n fs).world.devFor = w.devFor ∧
      (mount w uuid n fs).world.active = w.active ∧
      mountSysResult (mount w uuid n fs).world dev (mount_path_for_name n) fs
        = .error EBUSY := by
  cases hdv : w.devFor uuid with
  | none =>
    exfalso
    simp [mount, dev_path_for_uuid, hdv] at h
  | some dev =>
    have hd := dev_path_ensure_some w (mount_path_for_name n) uuid dev hdv
    refine ⟨dev, rfl, ?_⟩
    simp only [mount, hd] at h ⊢
    rw [mountSysResult_ensure] at h ⊢
    cases hms : mountSysResult w dev (mount_path_for_name n) fs with
    | ok _ =>
      simp only [hms] at h ⊢
      refine ⟨by simp, by simp, by simp, ?_⟩
      simp [mountSysResult]
    | error e =>
      simp only [hms] at h ⊢
      by_cases he : e = EBUSY
      · subst he
        rw [if_pos rfl] at h ⊢
        refine ⟨by simp, by simp, by simp, ?_⟩
        rw [mountSysResult_ensure]
        exact hms
      · exfalso
        simp [he] at h

theorem mount_again (w1 : World) (uuid n fs dev : String)
    (hpe : w1.pathExists (mount_path_for_name n) = true)
    (hdev : w1.devFor uuid = some dev)
    (hbusy : mountSysResult w1 dev (mount_path_for_name n) fs = .error EBUSY) :
    mount w1 uuid n fs =
      ⟨w1, [Event.mountSyscall dev (mount_path_for_name n) fs],
        .ok ⟨mount_path_for_name n, true⟩⟩ := by
  have he : ensure_mount_path w1 (mount_path_for_name n) = (w1, []) := by
    unfold ensure_mount_path; simp [hpe]
  simp [mount, he, dev_path_for_uuid, hdev, hbusy]


theorem open_active_noop (w : World) (u n : String)
    (h : opened_name_for_encrypted u n ∈ w.active) :
    open_encrypted w u n =
      ⟨w, [Event.cryptStatusCall (opened_name_for_encrypted u n)], .ok ()⟩ := by
  simp [open_encrypted, h]

theorem open_ok_active (w : World) (u n : String)
    (h : (open_encrypted w u n).result = .ok ()) :
    opened_name_for_encrypted u n ∈ (open_encrypted w u n).world.active := by
  by_cases ha : opened_name_for_encrypted u n ∈ w.active
  · rw [open_active_noop w u n ha]
    exact ha
  · simp only [open_encrypted, if_neg ha] at h ⊢
    cases hd : dev_path_for_uuid w u with
    | error e => simp [hd] at h
    | ok dev =>
      simp only [hd] at h ⊢
      by_cases hc : w.openCode dev (opened_name_for_encrypted u n) = 0
      · rw [if_pos hc]
        simp
      · rw [if_neg hc] at h
        simp at h

@[simp] theorem open_encrypted_devFor (w : World) (u n : String) :
    (open_encrypted w u n).world.devFor = w.devFor := by
  simp only [open_encrypted]
  split
  · rfl
  · split
    · rfl
    · split <;> rfl

theorem open_encrypted_trace_cases (w : World) (u n : String) :
    (open_encrypted w u n).trace =
        [Event.cryptStatusCall (opened_name_for_encrypted u n)] ∨
      ∃ dev, (open_encrypted w u n).trace =
        [Event.cryptStatusCall (opened_name_for_encrypted u n),
          Event.cryptOpenCall dev (opened_name_for_encrypted u n)] := by
  simp only [open_encrypted]
  split
  · left; rfl
  · split
    · left; rfl
    · split
      · right; exact ⟨_, rfl⟩
      · right; exact ⟨_, rfl⟩

@[simp] theorem unmount_world_active (w : World) (n : String) :
    (unmount w n).world.active = w.active := by
  simp only [unmount]
  split
  · split
    · rfl
    · split <;> rfl
  · rfl

@[simp] theorem unmount_world_closeCode (w : World) (n : String) :
    (unmount w n).world.closeCode = w.closeCode := by
  simp only [unmount]
  split
  · split
    · rfl
    · split <;> rfl
  · rfl

theorem unmount_trace_cases (w : World) (n : String) :
    (unmount w n).trace = [] ∨
      (unmount w n).trace = [Event.umountSyscall (mount_path_for_name n)] := by
  simp only [unmount]
  split
  · split
    · right; rfl
    · split <;> (right; rfl)
  · left; rfl

theorem unmount_ok_of_not_mounted (w : World) (n : String)
    (hnm : mount_path_for_name n ∉ w.mounted)
    (herr : w.umountErr (mount_path_for_name n) = none) :
    (unmount w n).result = .ok () := by
  simp only [unmount, umountSysResult]
  rw [herr, if_neg hnm]
  split
  · simp
  · rfl

theorem close_not_active (w : World) (u n : String)
    (h : opened_name_for_encrypted u n ∉ w.active) :
    close_encrypted w u n =
      ⟨w, [Event.cryptCloseCall (opened_name_for_encrypted u n)],
        .error (.cryptExited 4)⟩ := by
  simp [close_encrypted, h]


/-- Claim C6 (confirmed): `unmount` succeeds without issuing any OS
unmount call when the derived mount-point path does not exist; when the
path exists it issues the OS unmount call, treats an `EINVAL` result as
success, and returns an error for any other failure. -/
theorem c6_unmount_tolerance (w : World) (disk_name : String) :
    (w.pathExists (mount_path_for_name disk_name) = false →
      unmount w disk_name = ⟨w, [], .ok ()⟩) ∧
    (w.pathExists (mount_path_for_name disk_name) = true →
      (unmount w disk_name).trace =
        [Event.umountSyscall (mount_path_for_name disk_name)]) ∧
    (w.pathExists (mount_path_for_name disk_name) = true →
      w.umountErr (mount_path_for_name disk_name) = some EINVAL →
      (unmount w disk_name).result = .ok ()) ∧
    (∀ e, e ≠ EINVAL →
      w.pathExists (mount_path_for_name disk_name) = true →
      w.umountErr (mount_path_for_name disk_name) = some e →
      (unmount w disk_name).result = .error (.umountFailed e)) ∧
    (w.pathExists (mount_path_for_name disk_name) = true →
      w.umountErr (mount_path_for_name disk_name) = none →
      mount_path_for_name disk_name ∉ w.mounted →
      (unmount w disk_name).result = .ok ()) := by
  refine ⟨?_, ?_, ?_, ?_, ?_⟩
  · intro h
    simp [unmount, h]
  · intro h
    simp only [unmount, umountSysResult, h, if_true]
    split <;> (try split) <;> rfl
  · intro h he
    simp only [unmount, umountSysResult, h, he, if_true]
  · intro e hne h he
    simp only [unmount, umountSysResult, h, he, if_true]
    simp [hne]
  · intro h he hnm
    exact unmount_ok_of_not_mounted w disk_name hnm he

/-- Witness for C6 at concrete worlds: `w_base` has no mount path, so
`unmount` is a silent no-op; in `w_c2` the path exists and the syscall
fails with `EBUSY`, which propagates as `UnmountFailed`. -/
theorem c6_witness :
    w_base.pathExists (mount_path_for_name "zdani") = false ∧
    unmount w_base "zdani" = ⟨w_base, [], .ok ()⟩ ∧
    w_c2.pathExists (mount_path_for_name "sivydatni") = true ∧
    w_c2.umountErr (mount_path_for_name "sivydatni") = some EBUSY ∧
    (unmount w_c2 "sivydatni").trace =
      [Event.umountSyscall (mount_path_for_name "sivydatni")] ∧
    (unmount w_c2 "sivydatni").result = .error (.umountFailed EBUSY) :=
  ⟨by decide, (c6_unmount_tolerance w_base "zdani").1 (by decide), by decide,
    by decide, (c6_unmount_tolerance w_c2 "sivydatni").2.1 (by decide),
    (c6_unmount_tolerance w_c2 "sivydatni").2.2.2.1 EBUSY (by decide)
      (by decide) (by decide)⟩

/-- Claim C7 (confirmed): when the derived mapping is already active,
`open_encrypted` returns success after only the `cryptsetup status` probe:
the world is unchanged and no `cryptsetup open` (credential prompt) is
ever invoked. -/
theorem c7_open_already_active (w : World) (uuid disk_name : String)
    (h : opened_name_for_encrypted uuid disk_name ∈ w.active) :
    open_encrypted w uuid disk_name =
      ⟨w, [Event.cryptStatusCall (opened_name_for_encrypted uuid disk_name)],
        .ok ()⟩ := by
  simp [open_encrypted, h]

/-- Witness for C7: in `w_c7` the `sivydatni` mapping is active and `open`
is a pure status probe. -/
theorem c7_witness :
    opened_name_for_encrypted "a02adf15-769d-4b61-9122-ddb3b3d1e7c2"
        "sivydatni" ∈ w_c7.active ∧
    open_encrypted w_c7 "a02adf15-769d-4b61-9122-ddb3b3d1e7c2" "sivydatni" =
      ⟨w_c7,
        [Event.cryptStatusCall
          (opened_name_for_encrypted "a02adf15-769d-4b61-9122-ddb3b3d1e7c2"
            "sivydatni")],
        .ok ()⟩ :=
  ⟨by decide,
    c7_open_already_active w_c7 "a02adf15-769d-4b61-9122-ddb3b3d1e7c2"
      "sivydatni" (by decide)⟩

/-- Counterexample to claim C1 as stated: in `w_c1` the `zdani` volume is
already mounted, so `do_mount` reports `was_already_mounted = true`, yet
the `do_cd` trace still contains the unmount syscall after the shell
exits — `do_cd` does not skip `do_unmount`. -/
theorem c1_counterexample :
    (do_mount w_c1 Disk.Zdani).result = .ok ⟨"/mnt/zdani", true⟩ ∧
    Event.umountSyscall "/mnt/zdani" ∈ (do_cd w_c1 Disk.Zdani).trace := by
  decide

/-- Claim C1 (corrected): whenever `do_mount` succeeds, `do_cd` runs the
shell and then always calls `do_unmount`, regardless of the
`was_already_mounted` flag (which it discards); an unmount failure is
downgraded, so the overall result is success. -/
theorem c1_do_cd_always_unmounts (w : World) (disk : Disk)
    (ret : MountReturn) (h : (do_mount w disk).result = .ok ret) :
    do_cd w disk =
      ⟨(do_unmount (do_mount w disk).world disk).world,
        (do_mount w disk).trace
          ++ [Event.spawnShell ret.mount_path disk.is_encrypted]
          ++ (do_unmount (do_mount w disk).world disk).trace,
        .ok ()⟩ := by
  simp only [do_cd, h]

/-- Witness for C1: the corrected behavior at `w_c1`, where the flag is
`true` and the unmount still happens. -/
theorem c1_witness :
    (do_mount w_c1 Disk.Zdani).result = .ok ⟨"/mnt/zdani", true⟩ ∧
    do_cd w_c1 Disk.Zdani =
      ⟨(do_unmount (do_mount w_c1 Disk.Zdani).world Disk.Zdani).world,
        (do_mount w_c1 Disk.Zdani).trace
          ++ [Event.spawnShell "/mnt/zdani" Disk.Zdani.is_encrypted]
          ++ (do_unmount (do_mount w_c1 Disk.Zdani).world Disk.Zdani).trace,
        .ok ()⟩ :=
  ⟨by decide,
    c1_do_cd_always_unmounts w_c1 Disk.Zdani ⟨"/mnt/zdani", true⟩ (by decide)⟩

/-- Counterexample to claim C2 as stated: in `w_c2` the filesystem
unmount of encrypted `sivydatni` fails (`EBUSY`), and the `do_unmount`
trace contains no `cryptsetup close` call at all — the encryption close
is NOT attempted when the filesystem unmount returns an error. -/
theorem c2_counterexample :
    (do_unmount w_c2 Disk.Sivydatni).result = .error (.umountFailed EBUSY) ∧
    (do_unmount w_c2 Disk.Sivydatni).trace =
      [Event.umountSyscall "/mnt/sivydatni"] := by
  decide

/-- Claim C2 (corrected): for an encrypted volume `do_unmount` performs
the filesystem unmount strictly before the encryption close — when the
unmount step returns without error (including the tolerated `EINVAL`
case) the close is run on the post-unmount world and its trace follows
the unmount trace; but when the unmount step returns an error, the error
propagates and the encryption close is never attempted. -/
theorem c2_unmount_then_close (w : World) (disk : Disk) (o i : String)
    (hm : disk.to_mountable = .Encrypted o i) :
    ((unmount w disk.as_repr).result = .ok () →
      do_unmount w disk =
        ⟨(close_encrypted (unmount w disk.as_repr).world o disk.as_repr).world,
          (unmount w disk.as_repr).trace
            ++ (close_encrypted (unmount w disk.as_repr).world o
                  disk.as_repr).trace,
          (close_encrypted (unmount w disk.as_repr).world o
            disk.as_repr).result⟩) ∧
    (∀ e, (unmount w disk.as_repr).result = .error e →
      do_unmount w disk =
        ⟨(unmount w disk.as_repr).world, (unmount w disk.as_repr).trace,
          .error e⟩ ∧
      ∀ nm, Event.cryptCloseCall nm ∉ (do_unmount w disk).trace) := by
  constructor
  · intro hu
    simp only [do_unmount, hm, hu]
  · intro e hu
    constructor
    · simp only [do_unmount, hm, hu]
    · intro nm
      simp only [do_unmount, hm, hu]
      rcases unmount_trace_cases w disk.as_repr with ht | ht <;> rw [ht] <;> simp

/-- Witness for C2: at `w_base` the unmount step is a no-op success and
the close is attempted (and fails, mapping never opened); at `w_c2` the
unmount step fails and no close call appears in the trace. -/
theorem c2_witness :
    (unmount w_base Disk.Sivydatni.as_repr).result = .ok () ∧
    do_unmount w_base Disk.Sivydatni =
      ⟨(close_encrypted (unmount w_base Disk.Sivydatni.as_repr).world
          "a02adf15-769d-4b61-9122-ddb3b3d1e7c2" Disk.Sivydatni.as_repr).world,
        (unmount w_base Disk.Sivydatni.as_repr).trace
          ++ (close_encrypted (unmount w_base Disk.Sivydatni.as_repr).world
                "a02adf15-769d-4b61-9122-ddb3b3d1e7c2"
                Disk.Sivydatni.as_repr).trace,
        (close_encrypted (unmount w_base Disk.Sivydatni.as_repr).world
          "a02adf15-769d-4b61-9122-ddb3b3d1e7c2"
          Disk.Sivydatni.as_repr).result⟩ ∧
    (unmount w_c2 Disk.Sivydatni.as_repr).result =
      .error (.umountFailed EBUSY) ∧
    do_unmount w_c2 Disk.Sivydatni =
      ⟨(unmount w_c2 Disk.Sivydatni.as_repr).world,
        (unmount w_c2 Disk.Sivydatni.as_repr).trace,
        .error (.umountFailed EBUSY)⟩ ∧
    Event.cryptCloseCall
        (opened_name_for_encrypted "a02adf15-769d-4b61-9122-ddb3b3d1e7c2"
          "sivydatni")
      ∉ (do_unmount w_c2 Disk.Sivydatni).trace := by
  refine ⟨by decide, ?_, by decide, ?_, ?_⟩
  · exact (c2_unmount_then_close w_base Disk.Sivydatni _ _ rfl).1 (by decide)
  · exact ((c2_unmount_then_close w_c2 Disk.Sivydatni _ _ rfl).2
      (.umountFailed EBUSY) (by decide)).1
  · exact ((c2_unmount_then_close w_c2 Disk.Sivydatni _ _ rfl).2
      (.umountFailed EBUSY) (by decide)).2 _

/-- Counterexample to claim C3 as stated: in the quiescent world `w_base`
the encrypted volume `sivydatni` was never mounted and never opened, yet
`do_unmount` fails: the close step has no "already closed" tolerance and
`cryptsetup close` exits non-zero (4, device not active). -/
theorem c3_counterexample :
    (do_unmount w_base Disk.Sivydatni).result = .error (.cryptExited 4) := by
  decide

/-- Claim C3 (corrected): `do_unmount` on a never-mounted volume treats
the filesystem unmount as a tolerated no-op; for a plain volume the whole
operation therefore succeeds, but for an encrypted volume whose mapping
was never opened the encryption close fails (exit 4) and `do_unmount`
returns that error. -/
theorem c3_unmount_never_mounted (w : World) (disk : Disk)
    (hnm : mount_path_for_name disk.as_repr ∉ w.mounted)
    (herr : w.umountErr (mount_path_for_name disk.as_repr) = none) :
    (∀ uuid, disk.to_mountable = .Plain uuid →
      (do_unmount w disk).result = .ok ()) ∧
    (∀ o i, disk.to_mountable = .Encrypted o i →
      opened_name_for_encrypted o disk.as_repr ∉ w.active →
      (do_unmount w disk).result = .error (.cryptExited 4)) := by
  have hu := unmount_ok_of_not_mounted w disk.as_repr hnm herr
  constructor
  · intro uuid hm
    simp only [do_unmount, hm]
    exact hu
  · intro o i hm ha
    have ha2 : opened_name_for_encrypted o disk.as_repr ∉
        (unmount w disk.as_repr).world.active := by
      rw [unmount_world_active]; exact ha
    simp only [do_unmount, hm, hu, close_not_active _ _ _ ha2]

/-- Witness for C3: in `w_base`, plain `zdani` unmounts with success and
encrypted `sivydatni` fails at the close step. -/
theorem c3_witness :
    mount_path_for_name Disk.Zdani.as_repr ∉ w_base.mounted ∧
    (do_unmount w_base Disk.Zdani).result = .ok () ∧
    (do_unmount w_base Disk.Sivydatni).result = .error (.cryptExited 4) :=
  ⟨by decide,
    (c3_unmount_never_mounted w_base Disk.Zdani (by decide) rfl).1 _ rfl,
    (c3_unmount_never_mounted w_base Disk.Sivydatni (by decide) rfl).2 _ _
      rfl (by decide)⟩


/-- Counterexample to claim C4 as stated: in `w_c4` the unlock of
`sivydatni` succeeds and the device handed to the OS mount call is
`/dev/dm-7` — the registry resolution of the INNER UUID — which is not
the device-mapper node addressed by the derived session name that the
claim describes. -/
theorem c4_counterexample :
    (do_mount w_c4 Disk.Sivydatni).trace =
      [Event.cryptStatusCall "a02adf15-769d-4b61-9122-ddb3b3d1e7c2-sivydatni",
        Event.cryptOpenCall "/dev/sdb"
          "a02adf15-769d-4b61-9122-ddb3b3d1e7c2-sivydatni",
        Event.mountSyscall "/dev/dm-7" "/mnt/sivydatni" "ext4"] ∧
    "/dev/dm-7" ≠
      spec_mapper_device
        (opened_name_for_encrypted "a02adf15-769d-4b61-9122-ddb3b3d1e7c2"
          "sivydatni") := by
  decide

/-- Claim C4 (corrected): for an encrypted volume `do_mount` first calls
the encryption open with the outer UUID, and only then mounts; the device
handed to the OS mount call is the device-registry resolution of the
volume's INNER UUID (via `dev_path_for_uuid`), not the derived session
name, together with the volume's filesystem type. -/
theorem c4_mount_uses_inner_uuid_device (w : World) (disk : Disk)
    (o i dev : String)
    (hm : disk.to_mountable = .Encrypted o i)
    (hopen : (open_encrypted w o disk.as_repr).result = .ok ())
    (hdev : w.devFor i = some dev) :
    (do_mount w disk).trace =
      (open_encrypted w o disk.as_repr).trace
        ++ (mount (open_encrypted w o disk.as_repr).world i disk.as_repr
              disk.inner_filesystem).trace ∧
    Event.mountSyscall dev (mount_path_for_name disk.as_repr)
        disk.inner_filesystem ∈ (do_mount w disk).trace := by
  constructor
  · simp only [do_mount, hm, hopen]
  · simp only [do_mount, hm, hopen]
    have hdev2 : (open_encrypted w o disk.as_repr).world.devFor i = some dev := by
      rw [open_encrypted_devFor]; exact hdev
    exact List.mem_append.mpr (Or.inr
      (mount_trace_mem _ i disk.as_repr disk.inner_filesystem dev hdev2))

/-- Witness for C4 at `w_c4`: the trace decomposes as open-then-mount and
the mount syscall uses `/dev/dm-7`, the resolution of the inner UUID. -/
theorem c4_witness :
    (open_encrypted w_c4 "a02adf15-769d-4b61-9122-ddb3b3d1e7c2"
        Disk.Sivydatni.as_repr).result = .ok () ∧
    w_c4.devFor "ac80428f-f91d-4b99-9d40-c885d122be18" = some "/dev/dm-7" ∧
    (do_mount w_c4 Disk.Sivydatni).trace =
      (open_encrypted w_c4 "a02adf15-769d-4b61-9122-ddb3b3d1e7c2"
          Disk.Sivydatni.as_repr).trace
        ++ (mount (open_encrypted w_c4 "a02adf15-769d-4b61-9122-ddb3b3d1e7c2"
              Disk.Sivydatni.as_repr).world
              "ac80428f-f91d-4b99-9d40-c885d122be18" Disk.Sivydatni.as_repr
              Disk.Sivydatni.inner_filesystem).trace ∧
    Event.mountSyscall "/dev/dm-7" (mount_path_for_name Disk.Sivydatni.as_repr)
        Disk.Sivydatni.inner_filesystem ∈ (do_mount w_c4 Disk.Sivydatni).trace :=
  ⟨by decide, by decide,
    (c4_mount_uses_inner_uuid_device w_c4 Disk.Sivydatni _ _ "/dev/dm-7" rfl
      (by decide) (by decide)).1,
    (c4_mount_uses_inner_uuid_device w_c4 Disk.Sivydatni _ _ "/dev/dm-7" rfl
      (by decide) (by decide)).2⟩

/-- Claim C8 (confirmed): for an encrypted volume, when the encryption
open step fails, `do_mount` propagates exactly that error with the open
step's world and trace, and no OS mount call appears in the trace. -/
theorem c8_open_failure_skips_mount (w : World) (disk : Disk)
    (o i : String) (e : Err)
    (hm : disk.to_mountable = .Encrypted o i)
    (hopen : (open_encrypted w o disk.as_repr).result = .error e) :
    do_mount w disk =
      ⟨(open_encrypted w o disk.as_repr).world,
        (open_encrypted w o disk.as_repr).trace, .error e⟩ ∧
    ∀ dev p fs, Event.mountSyscall dev p fs ∉ (do_mount w disk).trace := by
  constructor
  · simp only [do_mount, hm, hopen]
  · intro dev p fs
    simp only [do_mount, hm, hopen]
    rcases open_encrypted_trace_cases w o disk.as_repr with ht | ⟨d, ht⟩ <;>
      rw [ht] <;> simp

/-- Witness for C8: in `w_base` the registry cannot resolve the outer
UUID, the open step fails with `DeviceNotFound`, and `do_mount` makes no
mount syscall. -/
theorem c8_witness :
    (open_encrypted w_base "a02adf15-769d-4b61-9122-ddb3b3d1e7c2"
        Disk.Sivydatni.as_repr).result =
      .error (.deviceNotFound "a02adf15-769d-4b61-9122-ddb3b3d1e7c2") ∧
    do_mount w_base Disk.Sivydatni =
      ⟨(open_encrypted w_base "a02adf15-769d-4b61-9122-ddb3b3d1e7c2"
          Disk.Sivydatni.as_repr).world,
        (open_encrypted w_base "a02adf15-769d-4b61-9122-ddb3b3d1e7c2"
          Disk.Sivydatni.as_repr).trace,
        .error (.deviceNotFound "a02adf15-769d-4b61-9122-ddb3b3d1e7c2")⟩ ∧
    Event.mountSyscall "/dev/dm-7" "/mnt/sivydatni" "ext4"
      ∉ (do_mount w_base Disk.Sivydatni).trace :=
  ⟨by decide,
    (c8_open_failure_skips_mount w_base Disk.Sivydatni _ _
      (.deviceNotFound "a02adf15-769d-4b61-9122-ddb3b3d1e7c2") rfl
      (by decide)).1,
    (c8_open_failure_skips_mount w_base Disk.Sivydatni _ _
      (.deviceNotFound "a02adf15-769d-4b61-9122-ddb3b3d1e7c2") rfl
      (by decide)).2 "/dev/dm-7" "/mnt/sivydatni" "ext4"⟩

theorem infix_append_left_of_infix {α : Type} (l₁ l₂ l₃ : List α)
    (h : l₁ <:+: l₃) : l₁ <:+: l₂ ++ l₃ := by
  obtain ⟨s, t, rfl⟩ := h
  exact ⟨l₂ ++ s, t, by simp⟩

theorem message_mentions (u : UnknownDisk) (t : String)
    (h : t.data <:+:
      ("\". valid disks are z (zdani), s (sivydatni), m (muhackiku), b (barda).").data) :
    t.data <:+: u.message.data := by
  show t.data <:+:
    (("unknown disk \"" ++ u.s)
      ++ "\". valid disks are z (zdani), s (sivydatni), m (muhackiku), b (barda).").data
  rw [String.data_append]
  exact infix_append_left_of_infix _ _ _ h

theorem disk_from_str_cases (s : String) :
    (∃ d, Disk.from_str s = .ok d) ∨ Disk.from_str s = .error ⟨s⟩ := by
  unfold Disk.from_str
  split_ifs <;> first | (left; exact ⟨_, rfl⟩) | (right; rfl)

/-- Claim C9 (confirmed): under the root precondition and a valid action
token, an input that is not a valid volume token makes `main` fail with
the `InvalidVolume` error before any external call (empty trace, so no
mount is attempted), the process exits non-zero, and the parse error's
message names the valid tokens z (zdani), s (sivydatni), m (muhackiku)
and b (barda) — matching the claim's list z, s, m, b[, sb] with the
optional sb omitted. -/
theorem c9_unknown_disk_rejected (w : World) (a s : String) (act : Action)
    (hroot : w.isRoot = true)
    (ha : Action.from_str a = .ok act)
    (hbad : ∀ d, Disk.from_str s ≠ .ok d) :
    run_main w a s = ⟨w, [], .error (.invalidVolume s)⟩ ∧
    exit_code (run_main w a s) = 1 ∧
    (∀ u, Disk.from_str s = .error u →
      ("z (zdani)").data <:+: u.message.data ∧
      ("s (sivydatni)").data <:+: u.message.data ∧
      ("m (muhackiku)").data <:+: u.message.data ∧
      ("b (barda)").data <:+: u.message.data) := by
  have herr : Disk.from_str s = .error ⟨s⟩ := by
    rcases disk_from_str_cases s with ⟨d, hd⟩ | h
    · exact absurd hd (hbad d)
    · exact h
  have hmain : run_main w a s = ⟨w, [], .error (.invalidVolume s)⟩ := by
    simp only [run_main, hroot, ha, herr, if_true]
  refine ⟨hmain, ?_, ?_⟩
  · rw [hmain]; rfl
  · intro u hu
    rw [herr] at hu
    injection hu with hu
    subst hu
    exact ⟨message_mentions _ _ (by decide), message_mentions _ _ (by decide),
      message_mentions _ _ (by decide), message_mentions _ _ (by decide)⟩

/-- Witness for C9 at the unknown token "x" with action "m" in `w_base`. -/
theorem c9_witness :
    w_base.isRoot = true ∧
    Action.from_str "m" = .ok .Mount ∧
    run_main w_base "m" "x" = ⟨w_base, [], .error (.invalidVolume "x")⟩ ∧
    exit_code (run_main w_base "m" "x") = 1 ∧
    ("z (zdani)").data <:+: (UnknownDisk.mk "x").message.data ∧
    ("b (barda)").data <:+: (UnknownDisk.mk "x").message.data := by
  have hbad : ∀ d, Disk.from_str "x" ≠ .ok d := by
    intro d
    cases d <;> decide
  refine ⟨rfl, by decide, ?_, ?_, ?_, ?_⟩
  · exact (c9_unknown_disk_rejected w_base "m" "x" .Mount rfl (by decide) hbad).1
  · exact (c9_unknown_disk_rejected w_base "m" "x" .Mount rfl (by decide)
      hbad).2.1
  · exact ((c9_unknown_disk_rejected w_base "m" "x" .Mount rfl (by decide)
      hbad).2.2 ⟨"x"⟩ (by decide)).1
  · exact ((c9_unknown_disk_rejected w_base "m" "x" .Mount rfl (by decide)
      hbad).2.2 ⟨"x"⟩ (by decide)).2.2.2


/-- Claim C10 (confirmed): distinct disks have distinct display names,
hence distinct derived mount points, and (when both are encrypted)
distinct derived session names. -/
theorem c10_distinct_names (d1 d2 : Disk) (h : d1 ≠ d2) :
    d1.as_repr ≠ d2.as_repr ∧
    mount_path_for_name d1.as_repr ≠ mount_path_for_name d2.as_repr ∧
    ∀ o1 i1 o2 i2, d1.to_mountable = .Encrypted o1 i1 →
      d2.to_mountable = .Encrypted o2 i2 →
      opened_name_for_encrypted o1 d1.as_repr ≠
        opened_name_for_encrypted o2 d2.as_repr := by
  cases d1 <;> cases d2 <;> first
    | exact absurd rfl h
    | exact ⟨by decide, by decide, by
        intro o1 i1 o2 i2 h1 h2
        simp only [Disk.to_mountable] at h1 h2
        first
          | exact Mountable.noConfusion h1
          | exact Mountable.noConfusion h2
          | (injection h1 with ho1 hi1
             injection h2 with ho2 hi2
             subst ho1; subst hi1; subst ho2; subst hi2
             decide)⟩

/-- Witness for C10 at the encrypted pair `sivydatni` / `muhackiku`. -/
theorem c10_witness :
    Disk.Sivydatni ≠ Disk.Muhackiku ∧
    Disk.Sivydatni.as_repr ≠ Disk.Muhackiku.as_repr ∧
    mount_path_for_name Disk.Sivydatni.as_repr ≠
      mount_path_for_name Disk.Muhackiku.as_repr ∧
    opened_name_for_encrypted "a02adf15-769d-4b61-9122-ddb3b3d1e7c2"
        Disk.Sivydatni.as_repr ≠
      opened_name_for_encrypted "809dbaf9-4c95-4baf-890c-e6866dd1a913"
        Disk.Muhackiku.as_repr :=
  ⟨by decide,
    (c10_distinct_names Disk.Sivydatni Disk.Muhackiku (by decide)).1,
    (c10_distinct_names Disk.Sivydatni Disk.Muhackiku (by decide)).2.1,
    (c10_distinct_names Disk.Sivydatni Disk.Muhackiku (by decide)).2.2 _ _ _ _
      rfl rfl⟩

/-- Claim C5 (confirmed): the mount backend treats an `EBUSY` outcome of
the OS mount call (target already mounted, or the environment reporting
busy) as success with `was_already_mounted = true`, while any other
non-success errno becomes a `MountFailed` error; consequently a `do_mount`
immediately following a successful `do_mount` of the same volume succeeds
with `was_already_mounted = true` and leaves the OS world unchanged (no
duplicate mount is established). -/
theorem c5_mount_idempotency :
    (∀ w : World, ∀ uuid n fs dev : String, w.devFor uuid = some dev →
      ((mount_path_for_name n ∈ w.mounted →
        (mount w uuid n fs).result = .ok ⟨mount_path_for_name n, true⟩) ∧
      (mount_path_for_name n ∉ w.mounted →
        w.mountErr dev (mount_path_for_name n) fs = some EBUSY →
        (mount w uuid n fs).result = .ok ⟨mount_path_for_name n, true⟩) ∧
      (∀ e, e ≠ EBUSY → mount_path_for_name n ∉ w.mounted →
        w.mountErr dev (mount_path_for_name n) fs = some e →
        (mount w uuid n fs).result = .error (.mountFailed e)))) ∧
    (∀ w : World, ∀ disk : Disk, ∀ mr : MountReturn,
      (do_mount w disk).result = .ok mr →
      (do_mount (do_mount w disk).world disk).result =
        .ok ⟨mount_path_for_name disk.as_repr, true⟩ ∧
      (do_mount (do_mount w disk).world disk).world =
        (do_mount w disk).world) := by
  constructor
  · intro w uuid n fs dev hdv
    have hd := dev_path_ensure_some w (mount_path_for_name n) uuid dev hdv
    refine ⟨?_, ?_, ?_⟩
    · intro hmem
      have hbusy : mountSysResult w dev (mount_path_for_name n) fs =
          .error EBUSY := by
        unfold mountSysResult; rw [if_pos hmem]
      simp [mount, hd, mountSysResult_ensure, hbusy]
    · intro hmem herr
      have hbusy : mountSysResult w dev (mount_path_for_name n) fs =
          .error EBUSY := by
        unfold mountSysResult; rw [if_neg hmem, herr]
      simp [mount, hd, mountSysResult_ensure, hbusy]
    · intro e hne hmem herr
      have hres : mountSysResult w dev (mount_path_for_name n) fs =
          .error e := by
        unfold mountSysResult; rw [if_neg hmem, herr]
      simp [mount, hd, mountSysResult_ensure, hres, hne]
  · intro w disk mr h
    rcases hmt : disk.to_mountable with uuid | ⟨o, i⟩
    · simp only [do_mount, hmt] at h ⊢
      obtain ⟨dev, hdv, hpe, hdf, hac, hbusy⟩ :=
        mount_ok_inv w uuid disk.as_repr disk.inner_filesystem mr h
      rw [mount_again (mount w uuid disk.as_repr disk.inner_filesystem).world
        uuid disk.as_repr disk.inner_filesystem dev hpe
        (by rw [hdf]; exact hdv) hbusy]
      exact ⟨rfl, rfl⟩
    · simp only [do_mount, hmt] at h ⊢
      cases ho : (open_encrypted w o disk.as_repr).result with
      | error e =>
        simp only [ho] at h
        exact Except.noConfusion h
      | ok u =>
        cases u
        simp only [ho] at h ⊢
        obtain ⟨dev, hdv, hpe, hdf, hac, hbusy⟩ :=
          mount_ok_inv (open_encrypted w o disk.as_repr).world i disk.as_repr
            disk.inner_filesystem mr h
        have hact : opened_name_for_encrypted o disk.as_repr ∈
            (open_encrypted w o disk.as_repr).world.active :=
          open_ok_active w o disk.as_repr ho
        have hact2 : opened_name_for_encrypted o disk.as_repr ∈
            (mount (open_encrypted w o disk.as_repr).world i disk.as_repr
              disk.inner_filesystem).world.active := by
          rw [hac]; exact hact
        rw [open_active_noop
          (mount (open_encrypted w o disk.as_repr).world i disk.as_repr
            disk.inner_filesystem).world o disk.as_repr hact2]
        simp only []
        rw [mount_again
          (mount (open_encrypted w o disk.as_repr).world i disk.as_repr
            disk.inner_filesystem).world i disk.as_repr disk.inner_filesystem
          dev hpe (by rw [hdf]; exact hdv) hbusy]
        exact ⟨rfl, rfl⟩

/-- Witness for C5: in `w_c1` (already mounted) `mount` returns the flag
set; in the fresh world `w_c5` the first `do_mount` newly mounts and the
second reports `was_already_mounted = true` with the world unchanged. -/
theorem c5_witness :
    w_c1.devFor "9972ca08-32d9-42da-9418-1afa4a7f6966" = some "/dev/sda1" ∧
    "/mnt/zdani" ∈ w_c1.mounted ∧
    (mount w_c1 "9972ca08-32d9-42da-9418-1afa4a7f6966" "zdani" "ext4").result =
      .ok ⟨"/mnt/zdani", true⟩ ∧
    (do_mount w_c5 Disk.Zdani).result = .ok ⟨"/mnt/zdani", false⟩ ∧
    (do_mount (do_mount w_c5 Disk.Zdani).world Disk.Zdani).result =
      .ok ⟨mount_path_for_name Disk.Zdani.as_repr, true⟩ ∧
    (do_mount (do_mount w_c5 Disk.Zdani).world Disk.Zdani).world =
      (do_mount w_c5 Disk.Zdani).world :=
  ⟨by decide, by decide,
    (c5_mount_idempotency.1 w_c1 "9972ca08-32d9-42da-9418-1afa4a7f6966"
      "zdani" "ext4" "/dev/sda1" (by decide)).1 (by decide),
    by decide,
    (c5_mount_idempotency.2 w_c5 Disk.Zdani ⟨"/mnt/zdani", false⟩
      (by decide)).1,
    (c5_mount_idempotency.2 w_c5 Disk.Zdani ⟨"/mnt/zdani", false⟩
      (by decide)).2⟩

end D
